import Mathlib

/-!
# MicroAPRS analog front end (`Modem/hardware.c`)

A shallow embedding of the two routines of `Modem/hardware.c`:

* `hw_afsk_adcInit`, the one-time configuration of Timer1 and of the ADC;
* `ADC_vect`, the interrupt service routine run at every conversion.

Registers are natural numbers; every store truncates to the width of the
register (`% 256` for the 8-bit registers, `% 65536` for `ICR1`).  The C type
`int` of the AVR target is 16 bits wide.
-/

namespace MicroAPRS

/-! ## Compile-time environment -/

/-- Names that `hardware.c` takes from headers outside the source tree
(`avr/io.h` for the bit numbers, the build configuration for `CPU_FREQ`),
together with the file's own `FREQUENCY_CORRECTION`, so that the documented
trim values can be studied as well as the default.  The bit numbers are
positions in 8-bit registers; a theorem that needs this says so. -/
structure Config where
  CPU_FREQ : Nat
  FREQUENCY_CORRECTION : Int
  CS10 : Nat
  WGM12 : Nat
  WGM13 : Nat
  REFS0 : Nat
  ADTS0 : Nat
  ADTS1 : Nat
  ADTS2 : Nat
  ADEN : Nat
  ADSC : Nat
  ADATE : Nat
  ADIE : Nat
  ADPS2 : Nat
  ICF1 : Nat
deriving Repr, DecidableEq

/-- Value of `#define FREQUENCY_CORRECTION 0` (line 22). -/
def FREQUENCY_CORRECTION : Int := 0

/-- Trim value documented for board M1 (line 20). -/
def M1_correction : Int := 9500

/-- Trim value documented for board M2 (line 21). -/
def M2_correction : Int := 40000

/-- The reference build: a 16 MHz ATmega328P with the bit numbers of its
register map and the correction of the source file. -/
def atmega328p : Config where
  CPU_FREQ := 16000000
  FREQUENCY_CORRECTION := FREQUENCY_CORRECTION
  CS10 := 0
  WGM12 := 3
  WGM13 := 4
  REFS0 := 6
  ADTS0 := 0
  ADTS1 := 1
  ADTS2 := 2
  ADEN := 7
  ADSC := 6
  ADATE := 5
  ADIE := 3
  ADPS2 := 2
  ICF1 := 5

/-- Modelled from the spec: the bit-value helper `BV` comes from a header that
is not in the source tree; the spec's key bit `0x08`, written `BV(3)` in the
code, fixes it as `1 << x`. -/
def BV (x : Nat) : Nat := 1 <<< x

/-! ## Machine integers -/

/-- Bit pattern of a C `int` (16 bits, two's complement). -/
def u16 (x : Int) : Nat := (x % 65536).toNat

/-- Conversion to `unsigned long` (32 bits). -/
def u32 (x : Int) : Nat := (x % 4294967296).toNat

/-- The cast `(int16_t) x` of an unsigned value. -/
def toInt16 (x : Nat) : Int :=
  if x % 65536 < 32768 then ((x % 65536 : Nat) : Int) else ((x % 65536 : Nat) : Int) - 65536

/-- Bitwise complement `~x` of a 16-bit `int`, as a bit pattern. -/
def not16 (x : Nat) : Nat := 0xFFFF ^^^ (x % 65536)

/-! ## Hardware state -/

/-- A pointer to the modem object (`Afsk *`). -/
abbrev AfskRef := Nat

/-- The file's three globals and the registers it touches.  `ADC` is the
16-bit conversion result, an input of the routine. -/
structure Hw where
  modem : AfskRef
  hw_ptt_on : Bool
  hw_afsk_dac_isr : Bool
  TCCR1A : Nat
  TCCR1B : Nat
  ICR1 : Nat
  ADMUX : Nat
  DDRC : Nat
  PORTC : Nat
  DIDR0 : Nat
  ADCSRB : Nat
  ADCSRA : Nat
  PORTD : Nat
  ADC : Nat
deriving Repr, DecidableEq

/-! ## `hw_afsk_adcInit` -/

/-- Ways in which `hw_afsk_adcInit` can fail to run to its end. -/
inductive Fault where
  | assertFailed
  | undefinedShift
deriving Repr, DecidableEq

/-- Modelled from the spec: the `ASSERT` helper comes from a header that is
not in the source tree; a check that does not hold is "failing a hardware
precondition", here the fault `assertFailed`, which ends the routine. -/
def ASSERT (cond : Bool) : Except Fault Unit :=
  if cond then .ok () else .error .assertFailed

/-- The condition of `ASSERT(ch <= 7)` (line 33), on a signed `int`. -/
def adcInit_assert (ch : Int) : Bool := decide (ch ≤ 7)

/-- The expression `BV(ch)` for a 16-bit `int` argument: `1 << ch` has no
defined value when the count is negative or the result does not fit. -/
def BV_signed (x : Int) : Except Fault Nat :=
  if x < 0 ∨ 14 < x then .error .undefinedShift else .ok (BV x.toNat)

/-- The value of `(((CPU_FREQ+FREQUENCY_CORRECTION)) / 9600) - 1` (line 69).
`CPU_FREQ` does not fit the 16-bit `int`, so the arithmetic is 32 bits wide;
it is taken as `unsigned long`. -/
def timerTop (cfg : Config) : Nat :=
  u32 (((u32 ((cfg.CPU_FREQ : Int) + cfg.FREQUENCY_CORRECTION) / 9600 : Nat) : Int) - 1)

/-- The routine `hw_afsk_adcInit(int ch, Afsk *_modem)` (lines 26 to 102),
statement by statement. -/
def hw_afsk_adcInit (cfg : Config) (ch : Int) (_modem : AfskRef) (h : Hw) :
    Except Fault Hw := do
  let h := { h with modem := _modem }
  ASSERT (adcInit_assert ch)
  let h := { h with TCCR1A := 0 }
  let h := { h with TCCR1B := (BV cfg.CS10 ||| BV cfg.WGM13 ||| BV cfg.WGM12) % 256 }
  let h := { h with ICR1 := timerTop cfg % 65536 }
  let h := { h with ADMUX := (BV cfg.REFS0 ||| u16 ch) % 256 }
  let h := { h with DDRC := (h.DDRC &&& not16 (← BV_signed ch)) % 256 }
  let h := { h with PORTC := (h.PORTC &&& not16 (← BV_signed ch)) % 256 }
  let h := { h with DIDR0 := (h.DIDR0 ||| (← BV_signed ch)) % 256 }
  let h := { h with ADCSRB := (BV cfg.ADTS2 ||| BV cfg.ADTS1 ||| BV cfg.ADTS0) % 256 }
  let h := { h with ADCSRA :=
    (BV cfg.ADEN ||| BV cfg.ADSC ||| BV cfg.ADATE ||| BV cfg.ADIE ||| BV cfg.ADPS2) % 256 }
  return h

/-! ## `ADC_vect` -/

/-- Registers written by the interrupt routine. -/
inductive Reg where
  | TIFR1
  | PORTD
deriving Repr, DecidableEq

/-- What one run of the interrupt routine does to the outside world: register
stores and calls into the modem. -/
inductive Event where
  | write (r : Reg) (v : Nat)
  | afsk_adc_isr (modem : AfskRef) (sample : Int)
  | afsk_dac_isr (modem : AfskRef)
deriving Repr, DecidableEq

/-- A run in progress: the hardware state and the events so far, oldest
first. -/
structure Run where
  hw : Hw
  trace : List Event
deriving Repr, DecidableEq

/-- Append one event to the log. -/
def Run.emit (r : Run) (e : Event) : Run := { r with trace := r.trace ++ [e] }

/-- Store to `TIFR1` (write-one-to-clear flag register, not kept in `Hw`). -/
def write_TIFR1 (v : Nat) (r : Run) : Run := r.emit (.write .TIFR1 (v % 256))

/-- Store to `PORTD`. -/
def write_PORTD (v : Nat) (r : Run) : Run :=
  ({ r with hw := { r.hw with PORTD := v % 256 } } : Run).emit (.write .PORTD (v % 256))

/-- Read of the 16-bit `ADC` register. -/
def read_ADC (r : Run) : Nat := r.hw.ADC % 65536

/-- Call `afsk_adc_isr(modem, sample)`.  The modem lives outside this file:
the call is logged with the value of its argument expression and is taken to
leave the globals and registers of this file alone. -/
def call_afsk_adc_isr (sample : Int) (r : Run) : Run :=
  r.emit (.afsk_adc_isr r.hw.modem sample)

/-- Call `afsk_dac_isr(modem)`; `ret` is the byte the modem answers with. -/
def call_afsk_dac_isr (ret : Nat) (r : Run) : Nat × Run :=
  (ret % 256, r.emit (.afsk_dac_isr r.hw.modem))

/-- The interrupt service routine (lines 116 to 159).  `dacRet` is what the
modem would return from `afsk_dac_isr` if asked during this run. -/
def ADC_vect (cfg : Config) (dacRet : Nat) (r : Run) : Run :=
  let r := write_TIFR1 (BV cfg.ICF1) r
  let r := call_afsk_adc_isr (toInt16 (read_ADC r >>> 2) - 128) r
  if r.hw.hw_afsk_dac_isr then
    let (s, r) := call_afsk_dac_isr dacRet r
    write_PORTD ((s &&& 0xF0) ||| BV 3) r
  else
    if r.hw.hw_ptt_on then
      write_PORTD 136 r
    else
      write_PORTD 128 r

/-- One interrupt, started with an empty log. -/
def isr (cfg : Config) (dacRet : Nat) (h : Hw) : Run := ADC_vect cfg dacRet ⟨h, []⟩

/-- Samples handed to `afsk_adc_isr` in a log. -/
def delivered : List Event → List Int
  | [] => []
  | .afsk_adc_isr _ x :: es => x :: delivered es
  | _ :: es => delivered es

/-- Values stored to `PORTD` in a log. -/
def portWrites : List Event → List Nat
  | [] => []
  | .write .PORTD v :: es => v :: portWrites es
  | _ :: es => portWrites es

/-- A hardware state used in the examples. -/
def hw0 : Hw where
  modem := 0x100
  hw_ptt_on := false
  hw_afsk_dac_isr := false
  TCCR1A := 0xFF
  TCCR1B := 0xFF
  ICR1 := 0xFFFF
  ADMUX := 0xFF
  DDRC := 0xFF
  PORTC := 0xFF
  DIDR0 := 0
  ADCSRB := 0
  ADCSRA := 0
  PORTD := 0
  ADC := 255


/-- The example state while transmitting. -/
def hwTx : Hw := { hw0 with hw_afsk_dac_isr := true }

/-- The example state with the transmitter keyed and nothing to send. -/
def hwKeyed : Hw := { hw0 with hw_ptt_on := true }

/-- The example state with the converter at the middle of its 10-bit range. -/
def hwMid : Hw := { hw0 with ADC := 512 }

/-- The example state with a raw reading of 128. -/
def hw128 : Hw := { hw0 with ADC := 128 }

/-- The reference build trimmed for board M1. -/
def boardM1 : Config := { atmega328p with FREQUENCY_CORRECTION := M1_correction }

/-- The reference build trimmed for board M2. -/
def boardM2 : Config := { atmega328p with FREQUENCY_CORRECTION := M2_correction }

/-! ## Auxiliary facts -/

theorem BV_eq (x : Nat) : BV x = 2 ^ x := by simp [BV, Nat.one_shiftLeft]

theorem BV_lt (x : Nat) (hx : x ≤ 7) : BV x < 2 ^ 8 := by
  rw [BV_eq]
  exact Nat.pow_lt_pow_right (by decide) (by omega)

theorem testBit_clear (D n i : Nat) :
    ((D &&& not16 (BV n)) % 256).testBit i =
      (decide (i < 8) && (D.testBit i && !decide (n = i))) := by
  have h1 : (65535 : Nat) = 2 ^ 16 - 1 := by norm_num
  have h2 : (65536 : Nat) = 2 ^ 16 := by norm_num
  have h3 : (256 : Nat) = 2 ^ 8 := by norm_num
  rw [not16, BV_eq, h1, h2, h3]
  simp only [Nat.testBit_mod_two_pow, Nat.testBit_and, Nat.testBit_xor,
    Nat.testBit_two_pow_sub_one, Nat.testBit_two_pow]
  by_cases hi : i < 8
  · have : i < 16 := by omega
    simp [hi, this]
  · simp [hi]

theorem testBit_set (D n i : Nat) :
    ((D ||| BV n) % 256).testBit i = (decide (i < 8) && (D.testBit i || decide (n = i))) := by
  have h3 : (256 : Nat) = 2 ^ 8 := by norm_num
  rw [BV_eq, h3]
  simp only [Nat.testBit_mod_two_pow, Nat.testBit_or, Nat.testBit_two_pow]

theorem clear_twice (D n : Nat) :
    (((D &&& not16 (BV n)) % 256) &&& not16 (BV n)) % 256 = (D &&& not16 (BV n)) % 256 := by
  apply Nat.eq_of_testBit_eq
  intro i
  rw [testBit_clear, testBit_clear]
  cases decide (i < 8) <;> cases D.testBit i <;> cases decide (n = i) <;> rfl

theorem set_twice (D n : Nat) :
    (((D ||| BV n) % 256) ||| BV n) % 256 = (D ||| BV n) % 256 := by
  apply Nat.eq_of_testBit_eq
  intro i
  rw [testBit_set, testBit_set]
  cases decide (i < 8) <;> cases D.testBit i <;> cases decide (n = i) <;> rfl

theorem u16_small (n : Nat) (hn : n ≤ 7) : u16 (n : Int) = n := by
  unfold u16
  omega

/-- The state `hw_afsk_adcInit` produces for a channel in `0..7`. -/
theorem adcInit_ok (cfg : Config) (n : Nat) (hn : n ≤ 7) (m : AfskRef) (h : Hw) :
    hw_afsk_adcInit cfg (n : Int) m h = Except.ok
      { h with
        modem := m
        TCCR1A := 0
        TCCR1B := (BV cfg.CS10 ||| BV cfg.WGM13 ||| BV cfg.WGM12) % 256
        ICR1 := timerTop cfg % 65536
        ADMUX := (BV cfg.REFS0 ||| n) % 256
        DDRC := (h.DDRC &&& not16 (BV n)) % 256
        PORTC := (h.PORTC &&& not16 (BV n)) % 256
        DIDR0 := (h.DIDR0 ||| BV n) % 256
        ADCSRB := (BV cfg.ADTS2 ||| BV cfg.ADTS1 ||| BV cfg.ADTS0) % 256
        ADCSRA :=
          (BV cfg.ADEN ||| BV cfg.ADSC ||| BV cfg.ADATE ||| BV cfg.ADIE ||| BV cfg.ADPS2) % 256 } := by
  have ha : adcInit_assert (n : Int) = true := by
    unfold adcInit_assert
    exact decide_eq_true (by omega)
  have hb : BV_signed (n : Int) = Except.ok (BV n) := by
    have hneg : ¬ ((n : Int) < 0 ∨ 14 < (n : Int)) := by omega
    unfold BV_signed
    rw [if_neg hneg, Int.toNat_ofNat]
  simp [hw_afsk_adcInit, ASSERT, ha, hb, u16_small n hn, bind, Except.bind, pure, Except.pure]

theorem timerTop_nominal (cfg : Config) (hf : cfg.CPU_FREQ = 16000000)
    (hc0 : 0 ≤ cfg.FREQUENCY_CORRECTION) (hc1 : cfg.FREQUENCY_CORRECTION ≤ 40000) :
    ((timerTop cfg % 65536 : Nat) : Int) = (16000000 + cfg.FREQUENCY_CORRECTION) / 9600 - 1 := by
  unfold timerTop u32
  rw [hf]
  omega


theorem isr_trace (cfg : Config) (d : Nat) (h : Hw) :
    (isr cfg d h).trace =
      [Event.write Reg.TIFR1 (BV cfg.ICF1 % 256),
       Event.afsk_adc_isr h.modem (toInt16 ((h.ADC % 65536) >>> 2) - 128)] ++
      (if h.hw_afsk_dac_isr then
        [Event.afsk_dac_isr h.modem,
         Event.write Reg.PORTD ((((d % 256) &&& 0xF0) ||| BV 3) % 256)]
      else if h.hw_ptt_on then [Event.write Reg.PORTD 136]
      else [Event.write Reg.PORTD 128]) := by
  cases hd : h.hw_afsk_dac_isr <;> cases hp : h.hw_ptt_on <;>
    simp [isr, ADC_vect, write_TIFR1, call_afsk_adc_isr, call_afsk_dac_isr, write_PORTD,
      read_ADC, Run.emit, hd, hp]

theorem toInt16_small (x : Nat) (hx : x < 32768) : toInt16 x = (x : Int) := by
  unfold toInt16
  have h1 : x % 65536 = x := Nat.mod_eq_of_lt (by omega)
  rw [h1, if_pos hx]

theorem sample_eq (raw : Nat) (hraw : raw ≤ 1023) :
    toInt16 ((raw % 65536) >>> 2) - (128 : Int) = ((raw >>> 2 : Nat) : Int) - (128 : Int) := by
  have h1 : raw % 65536 = raw := Nat.mod_eq_of_lt (by omega)
  have h2 : raw >>> 2 = raw / 4 := by simp [Nat.shiftRight_eq_div_pow]
  rw [h1, toInt16_small _ (by rw [h2]; omega)]

theorem shr2 (raw : Nat) : raw >>> 2 = raw / 4 := by simp [Nat.shiftRight_eq_div_pow]

theorem dac_byte (s : Nat) : (((s % 256) &&& 0xF0) ||| BV 3) % 256 = (s &&& 0xF0) ||| 0x08 := by
  have hb : BV 3 = 8 := by decide
  have h1 : (s % 256) &&& 0xF0 = s &&& 0xF0 := by
    apply Nat.eq_of_testBit_eq
    intro i
    by_cases hi : i < 8
    · simp [Nat.testBit_mod_two_pow s 8 i, hi]
    · have h240 : Nat.testBit 240 i = false :=
        Nat.testBit_lt_two_pow (Nat.lt_of_lt_of_le (by decide : 240 < 2 ^ 8)
          (Nat.pow_le_pow_right (by decide) (by omega)))
      simp [h240]
  have h2 : s &&& 0xF0 < 2 ^ 8 := Nat.and_lt_two_pow s (by decide)
  have h3 : (s &&& 0xF0) ||| 8 < 2 ^ 8 := Nat.or_lt_two_pow h2 (by decide)
  rw [hb, h1]
  exact Nat.mod_eq_of_lt h3

theorem delivered_isr (cfg : Config) (d : Nat) (h : Hw) :
    delivered (isr cfg d h).trace = [toInt16 ((h.ADC % 65536) >>> 2) - 128] := by
  rw [isr_trace]
  cases h.hw_afsk_dac_isr <;> cases h.hw_ptt_on <;> simp [delivered]

theorem portWrites_isr (cfg : Config) (d : Nat) (h : Hw) :
    portWrites (isr cfg d h).trace =
      [if h.hw_afsk_dac_isr then (d &&& 0xF0) ||| 0x08
       else if h.hw_ptt_on then 136 else 128] := by
  rw [isr_trace, dac_byte]
  cases h.hw_afsk_dac_isr <;> cases h.hw_ptt_on <;> simp [portWrites]

theorem isr_PORTD (cfg : Config) (d : Nat) (h : Hw) :
    (isr cfg d h).hw.PORTD =
      if h.hw_afsk_dac_isr then (d &&& 0xF0) ||| 0x08
      else if h.hw_ptt_on then 136 else 128 := by
  cases hd : h.hw_afsk_dac_isr <;> cases hp : h.hw_ptt_on <;>
    simp [isr, ADC_vect, write_TIFR1, call_afsk_adc_isr, call_afsk_dac_isr, write_PORTD,
      read_ADC, Run.emit, hd, hp, dac_byte]

theorem modulating_ne_quiet (s : Nat) : (s &&& 0xF0) ||| 0x08 ≠ 128 := by
  intro h
  have h3 : ((s &&& 0xF0) ||| 0x08).testBit 3 = true := by
    rw [Nat.testBit_or]
    have : Nat.testBit 8 3 = true := by decide
    simp [this]
  rw [h] at h3
  revert h3
  decide

theorem modulating_eq_keyed_iff (s : Nat) (hs : s < 256) :
    (s &&& 0xF0) ||| 0x08 = 136 ↔ 128 ≤ s ∧ s ≤ 143 := by
  interval_cases s <;> decide

/-! ## The capture path -/

/-- C1. For every raw reading in `0..1023` the one sample that a run of the
interrupt routine hands to `afsk_adc_isr` is `(raw >> 2) - 128`, a value that
fits the signed 16-bit type it is computed in; a reading of 255 gives -65. -/
theorem capture_transform (cfg : Config) (d : Nat) (h : Hw) :
    (h.ADC ≤ 1023 →
      delivered (isr cfg d h).trace = [((h.ADC >>> 2 : Nat) : Int) - 128] ∧
      -32768 ≤ ((h.ADC >>> 2 : Nat) : Int) - 128 ∧
      ((h.ADC >>> 2 : Nat) : Int) - 128 ≤ 32767) ∧
    (h.ADC = 255 → delivered (isr cfg d h).trace = [-65]) := by
  refine ⟨fun hraw => ⟨?_, ?_, ?_⟩, fun h255 => ?_⟩
  · rw [delivered_isr, sample_eq _ hraw]
  · rw [shr2]; omega
  · rw [shr2]; omega
  · rw [delivered_isr, h255]; decide

/-- Witness for C1 at the raw reading 255. -/
theorem capture_transform_witness :
    hw0.ADC ≤ 1023 ∧ hw0.ADC = 255 ∧
    delivered (isr atmega328p 0 hw0).trace = [((hw0.ADC >>> 2 : Nat) : Int) - 128] ∧
    delivered (isr atmega328p 0 hw0).trace = [-65] :=
  ⟨by decide, by decide, ((capture_transform atmega328p 0 hw0).1 (by decide)).1,
    (capture_transform atmega328p 0 hw0).2 (by decide)⟩

/-- C3, as stated, fails: a raw reading of 128 is delivered as -96, not 0. -/
theorem midscale_128_not_zero :
    delivered (isr atmega328p 0 hw128).trace = [-96] ∧
    ¬ (∀ (cfg : Config) (d : Nat) (h : Hw),
        h.ADC = 128 → delivered (isr cfg d h).trace = [0]) := by
  refine ⟨by decide, fun hall => ?_⟩
  have h1 := hall atmega328p 0 hw128 (by decide)
  revert h1
  decide

/-- C3, amended. When the raw converter input is 512, the middle of the
10-bit range, the sample delivered to the modem is 0. -/
theorem midscale_recentering (cfg : Config) (d : Nat) (h : Hw) (hraw : h.ADC = 512) :
    delivered (isr cfg d h).trace = [0] := by
  rw [delivered_isr, hraw]; decide

/-- Witness for the amended C3. -/
theorem midscale_recentering_witness :
    hwMid.ADC = 512 ∧ delivered (isr atmega328p 0 hwMid).trace = [0] :=
  ⟨by decide, midscale_recentering atmega328p 0 hwMid (by decide)⟩

/-- C9. For every raw reading in `0..1023` the delivered sample is
`(raw >> 2) - 128` and lies in `-128..127`; it is -128 at 0 and 127 at 1023;
it is 0 exactly for readings 512 to 515; and a larger reading never gives a
smaller sample. -/
theorem delivered_sample_range (cfg : Config) (d : Nat) (h : Hw) (hraw : h.ADC ≤ 1023) :
    ∃ x : Int, delivered (isr cfg d h).trace = [x] ∧
      x = ((h.ADC >>> 2 : Nat) : Int) - 128 ∧
      -128 ≤ x ∧ x ≤ 127 ∧
      (h.ADC = 0 → x = -128) ∧ (h.ADC = 1023 → x = 127) ∧
      (x = 0 ↔ 512 ≤ h.ADC ∧ h.ADC ≤ 515) ∧
      (∀ (d2 : Nat) (h2 : Hw), h.ADC ≤ h2.ADC → h2.ADC ≤ 1023 →
        ∃ y : Int, delivered (isr cfg d2 h2).trace = [y] ∧ x ≤ y) := by
  refine ⟨((h.ADC >>> 2 : Nat) : Int) - 128, ?_, rfl, ?_, ?_, ?_, ?_, ?_, ?_⟩
  · rw [delivered_isr, sample_eq _ hraw]
  · rw [shr2]; omega
  · rw [shr2]; omega
  · intro h0; rw [shr2]; omega
  · intro h0; rw [shr2]; omega
  · rw [shr2]; omega
  · intro d2 h2 hle h2raw
    refine ⟨((h2.ADC >>> 2 : Nat) : Int) - 128, ?_, ?_⟩
    · rw [delivered_isr, sample_eq _ h2raw]
    · rw [shr2, shr2]; omega

/-- Witness for C9 at the raw reading 512. -/
theorem delivered_sample_range_witness :
    hwMid.ADC ≤ 1023 ∧
    ∃ x : Int, delivered (isr atmega328p 0 hwMid).trace = [x] ∧
      x = ((hwMid.ADC >>> 2 : Nat) : Int) - 128 ∧
      -128 ≤ x ∧ x ≤ 127 ∧
      (hwMid.ADC = 0 → x = -128) ∧ (hwMid.ADC = 1023 → x = 127) ∧
      (x = 0 ↔ 512 ≤ hwMid.ADC ∧ hwMid.ADC ≤ 515) ∧
      (∀ (d2 : Nat) (h2 : Hw), hwMid.ADC ≤ h2.ADC → h2.ADC ≤ 1023 →
        ∃ y : Int, delivered (isr atmega328p d2 h2).trace = [y] ∧ x ≤ y) :=
  ⟨by decide, delivered_sample_range atmega328p 0 hwMid (by decide)⟩

/-! ## The playback path -/

/-- C2. The value one run of the interrupt routine stores to `PORTD`, for a
modem answer `s`: 128 when neither flag is set, 136 when only `hw_ptt_on` is
set, and `(s AND 0xF0) OR 0x08` when `hw_afsk_dac_isr` is set, whatever
`hw_ptt_on` is; there is exactly one such store, and `s = 0x37` gives
`0x38`. -/
theorem playback_level (cfg : Config) (s : Nat) (h : Hw) :
    (h.hw_afsk_dac_isr = false → h.hw_ptt_on = false →
      portWrites (isr cfg s h).trace = [128] ∧ (isr cfg s h).hw.PORTD = 128) ∧
    (h.hw_afsk_dac_isr = false → h.hw_ptt_on = true →
      portWrites (isr cfg s h).trace = [136] ∧ (isr cfg s h).hw.PORTD = 136) ∧
    (h.hw_afsk_dac_isr = true →
      portWrites (isr cfg s h).trace = [(s &&& 0xF0) ||| 0x08] ∧
      (isr cfg s h).hw.PORTD = (s &&& 0xF0) ||| 0x08) ∧
    (h.hw_afsk_dac_isr = true → s = 0x37 →
      portWrites (isr cfg s h).trace = [0x38] ∧ (isr cfg s h).hw.PORTD = 0x38) := by
  rw [portWrites_isr, isr_PORTD]
  refine ⟨fun hd hp => ?_, fun hd hp => ?_, fun hd => ?_, fun hd hs => ?_⟩
  · simp [hd, hp]
  · simp [hd, hp]
  · simp [hd]
  · subst hs; simp only [hd, if_true]; decide

/-- Witness for C2: the three output states with the modem answer `0x37`. -/
theorem playback_level_witness :
    (hwTx.hw_afsk_dac_isr = true ∧ (0x37 : Nat) = 0x37 ∧
      portWrites (isr atmega328p 0x37 hwTx).trace = [0x38] ∧
      (isr atmega328p 0x37 hwTx).hw.PORTD = 0x38) ∧
    (hwKeyed.hw_afsk_dac_isr = false ∧ hwKeyed.hw_ptt_on = true ∧
      portWrites (isr atmega328p 0x37 hwKeyed).trace = [136] ∧
      (isr atmega328p 0x37 hwKeyed).hw.PORTD = 136) ∧
    (hw0.hw_afsk_dac_isr = false ∧ hw0.hw_ptt_on = false ∧
      portWrites (isr atmega328p 0x37 hw0).trace = [128] ∧
      (isr atmega328p 0x37 hw0).hw.PORTD = 128) ∧
    (hwTx.hw_afsk_dac_isr = true ∧
      portWrites (isr atmega328p 0x37 hwTx).trace = [(0x37 &&& 0xF0) ||| 0x08]) :=
  ⟨⟨by decide, rfl, (playback_level atmega328p 0x37 hwTx).2.2.2 (by decide) rfl⟩,
   ⟨by decide, by decide, (playback_level atmega328p 0x37 hwKeyed).2.1 (by decide) (by decide)⟩,
   ⟨by decide, by decide, (playback_level atmega328p 0x37 hw0).1 (by decide) (by decide)⟩,
   ⟨by decide, ((playback_level atmega328p 0x37 hwTx).2.2.1 (by decide)).1⟩⟩

/-- C4, as stated, fails: when the modem answers `0x80` the modulating store
is 136, the very value stored in the keyed-idle state. -/
theorem modulating_can_equal_keyed_idle :
    portWrites (isr atmega328p 0x80 hwTx).trace = [136] ∧
    portWrites (isr atmega328p 0x80 hwKeyed).trace = [136] ∧
    ¬ (∀ (cfg : Config) (s : Nat) (hq hk hm : Hw), s < 256 →
        hq.hw_afsk_dac_isr = false → hq.hw_ptt_on = false →
        hk.hw_afsk_dac_isr = false → hk.hw_ptt_on = true →
        hm.hw_afsk_dac_isr = true →
        portWrites (isr cfg s hq).trace ≠ portWrites (isr cfg s hk).trace ∧
        portWrites (isr cfg s hq).trace ≠ portWrites (isr cfg s hm).trace ∧
        portWrites (isr cfg s hk).trace ≠ portWrites (isr cfg s hm).trace) := by
  refine ⟨by decide, by decide, fun hall => ?_⟩
  have h1 := (hall atmega328p 0x80 hw0 hwKeyed hwTx (by decide) (by decide) (by decide)
    (by decide) (by decide) (by decide)).2.2
  revert h1
  decide

/-- C4, amended. For every 8-bit modem answer `s`, the quiet store (128)
differs from the keyed-idle store (136) and from the modulating store
`(s AND 0xF0) OR 0x08`; the modulating store differs from the keyed-idle store
exactly when `s` is outside `128..143`, and equals it (136) inside. -/
theorem output_states_distinguishable (cfg : Config) (s : Nat) (hq hk hm : Hw)
    (hs : s < 256)
    (hq1 : hq.hw_afsk_dac_isr = false) (hq2 : hq.hw_ptt_on = false)
    (hk1 : hk.hw_afsk_dac_isr = false) (hk2 : hk.hw_ptt_on = true)
    (hm1 : hm.hw_afsk_dac_isr = true) :
    portWrites (isr cfg s hq).trace ≠ portWrites (isr cfg s hk).trace ∧
    portWrites (isr cfg s hq).trace ≠ portWrites (isr cfg s hm).trace ∧
    (portWrites (isr cfg s hk).trace ≠ portWrites (isr cfg s hm).trace ↔
      ¬ (128 ≤ s ∧ s ≤ 143)) := by
  rw [portWrites_isr, portWrites_isr, portWrites_isr]
  simp only [hq1, hq2, hk1, hk2, hm1]
  refine ⟨by simp, ?_, ?_⟩
  · intro h
    have h1 := (List.cons.inj h).1
    exact modulating_ne_quiet s h1.symm
  · rw [← modulating_eq_keyed_iff s hs]
    constructor
    · intro h h2
      apply h
      simp [h2]
    · intro h h2
      apply h
      have h1 := (List.cons.inj h2).1
      simpa using h1.symm

/-- Witness for the amended C4 with the modem answer `0x37`. -/
theorem output_states_distinguishable_witness :
    (0x37 : Nat) < 256 ∧
    portWrites (isr atmega328p 0x37 hw0).trace ≠ portWrites (isr atmega328p 0x37 hwKeyed).trace ∧
    portWrites (isr atmega328p 0x37 hw0).trace ≠ portWrites (isr atmega328p 0x37 hwTx).trace ∧
    (portWrites (isr atmega328p 0x37 hwKeyed).trace ≠ portWrites (isr atmega328p 0x37 hwTx).trace ↔
      ¬ (128 ≤ 0x37 ∧ 0x37 ≤ 143)) :=
  ⟨by decide, output_states_distinguishable atmega328p 0x37 hw0 hwKeyed hwTx (by decide)
    (by decide) (by decide) (by decide) (by decide) (by decide)⟩

/-! ## The dispatcher -/

/-- C6. The observable actions of one run of the interrupt routine, in
order: the store of `BV(ICF1)` to `TIFR1`; one `afsk_adc_isr` call; one
`afsk_dac_isr` call exactly when `hw_afsk_dac_isr` is set; one store to
`PORTD`.  Any `afsk_adc_isr` call in the log comes before any `afsk_dac_isr`
call. -/
theorem dispatcher_order (cfg : Config) (d : Nat) (h : Hw) :
    (isr cfg d h).trace =
      [Event.write Reg.TIFR1 (BV cfg.ICF1 % 256),
       Event.afsk_adc_isr h.modem (toInt16 ((h.ADC % 65536) >>> 2) - 128)] ++
      (if h.hw_afsk_dac_isr then [Event.afsk_dac_isr h.modem] else []) ++
      [Event.write Reg.PORTD
        (if h.hw_afsk_dac_isr then (d &&& 0xF0) ||| 0x08
         else if h.hw_ptt_on then 136 else 128)] ∧
    (cfg.ICF1 ≤ 7 → BV cfg.ICF1 % 256 = BV cfg.ICF1) ∧
    (∀ (i j : Nat) (m1 m2 : AfskRef) (y : Int),
      (isr cfg d h).trace[i]? = some (Event.afsk_dac_isr m1) →
      (isr cfg d h).trace[j]? = some (Event.afsk_adc_isr m2 y) → j < i) := by
  refine ⟨?_, fun hb => Nat.mod_eq_of_lt (BV_lt _ hb), ?_⟩
  · rw [isr_trace, dac_byte]
    cases h.hw_afsk_dac_isr <;> cases h.hw_ptt_on <;> simp
  · intro i j m1 m2 y
    rw [isr_trace]
    cases h.hw_afsk_dac_isr <;> cases h.hw_ptt_on <;>
      rcases i with _ | _ | _ | _ | i <;> rcases j with _ | _ | _ | _ | j <;> simp

/-- Witness for C6: a transmitting run on the reference build. -/
theorem dispatcher_order_witness :
    atmega328p.ICF1 ≤ 7 ∧
    (isr atmega328p 0x37 hwTx).trace =
      [Event.write Reg.TIFR1 32, Event.afsk_adc_isr hwTx.modem (-65),
       Event.afsk_dac_isr hwTx.modem, Event.write Reg.PORTD 0x38] ∧
    BV atmega328p.ICF1 % 256 = BV atmega328p.ICF1 ∧
    (∀ (i j : Nat) (m1 m2 : AfskRef) (y : Int),
      (isr atmega328p 0x37 hwTx).trace[i]? = some (Event.afsk_dac_isr m1) →
      (isr atmega328p 0x37 hwTx).trace[j]? = some (Event.afsk_adc_isr m2 y) → j < i) :=
  ⟨by decide, (dispatcher_order atmega328p 0x37 hwTx).1.trans (by decide),
    (dispatcher_order atmega328p 0x37 hwTx).2.1 (by decide),
    (dispatcher_order atmega328p 0x37 hwTx).2.2⟩

/-! ## Initialization -/

/-- C5, evaluated on the code. The condition of `ASSERT(ch <= 7)` holds
exactly when `ch ≤ 7`, so it holds for the negative channel -1, which is not
an analog input; initialization then goes on to shift by a negative count. -/
theorem negative_channel_passes_assert :
    adcInit_assert (-1) = true ∧
    ¬ (0 ≤ (-1 : Int) ∧ (-1 : Int) ≤ 7) ∧
    hw_afsk_adcInit atmega328p (-1) 0x100 hw0 = Except.error Fault.undefinedShift ∧
    (∀ ch : Int, adcInit_assert ch = true ↔ ch ≤ 7) ∧
    (∀ (cfg : Config) (ch : Int) (m : AfskRef) (h : Hw),
      hw_afsk_adcInit cfg ch m h = Except.error Fault.assertFailed ↔ 7 < ch) := by
  refine ⟨by decide, by decide, rfl, fun ch => by simp [adcInit_assert], ?_⟩
  intro cfg ch m h
  by_cases h7 : ch ≤ 7
  · have ha : adcInit_assert ch = true := by simp [adcInit_assert, h7]
    have hn : ¬ 7 < ch := by omega
    by_cases hneg : ch < 0
    · have hb : BV_signed ch = Except.error Fault.undefinedShift := by
        unfold BV_signed
        rw [if_pos (Or.inl hneg)]
      simp [hw_afsk_adcInit, ASSERT, ha, hb, hn, bind, Except.bind, pure, Except.pure]
    · have hb : BV_signed ch = Except.ok (BV ch.toNat) := by
        have hd : ¬ (ch < 0 ∨ 14 < ch) := by omega
        unfold BV_signed
        rw [if_neg hd]
      simp [hw_afsk_adcInit, ASSERT, ha, hb, hn, bind, Except.bind, pure, Except.pure]
  · have ha : adcInit_assert ch = false := by simp [adcInit_assert, h7]
    have hn : 7 < ch := by omega
    simp [hw_afsk_adcInit, ASSERT, ha, hn, bind, Except.bind]

/-- C7. With the nominal 16 MHz clock and a correction in `0..40000`,
initialization stores `(CPU_FREQ + correction) / 9600 - 1` to `ICR1`; the
value lies in `0..65535`, so the 16-bit store does not truncate it, and it is
1665 for correction 0. -/
theorem clock_divisor_in_range (cfg : Config) (ch : Int) (m : AfskRef) (h : Hw)
    (hf : cfg.CPU_FREQ = 16000000)
    (hc0 : 0 ≤ cfg.FREQUENCY_CORRECTION) (hc1 : cfg.FREQUENCY_CORRECTION ≤ 40000)
    (hch0 : 0 ≤ ch) (hch1 : ch ≤ 7) :
    ∃ h1 : Hw, hw_afsk_adcInit cfg ch m h = Except.ok h1 ∧
      (h1.ICR1 : Int) = ((cfg.CPU_FREQ : Int) + cfg.FREQUENCY_CORRECTION) / 9600 - 1 ∧
      0 ≤ ((cfg.CPU_FREQ : Int) + cfg.FREQUENCY_CORRECTION) / 9600 - 1 ∧
      ((cfg.CPU_FREQ : Int) + cfg.FREQUENCY_CORRECTION) / 9600 - 1 ≤ 65535 ∧
      h1.ICR1 = timerTop cfg ∧
      (cfg.FREQUENCY_CORRECTION = 0 → h1.ICR1 = 1665) := by
  obtain ⟨n, rfl⟩ := Int.eq_ofNat_of_zero_le hch0
  have hn : n ≤ 7 := by omega
  have ht := timerTop_nominal cfg hf hc0 hc1
  refine ⟨_, adcInit_ok cfg n hn m h, ?_, ?_, ?_, ?_, ?_⟩
  · simp only [ht, hf]; rfl
  · rw [hf]; omega
  · rw [hf]; omega
  · show timerTop cfg % 65536 = timerTop cfg
    apply Nat.mod_eq_of_lt
    have : ((timerTop cfg % 65536 : Nat) : Int) = _ := ht
    unfold timerTop u32 at this ⊢
    rw [hf] at this ⊢
    omega
  · intro hz
    show timerTop cfg % 65536 = 1665
    rw [hz] at ht
    omega

/-- Witness for C7: the reference build, and the reload values of the three documented corrections. -/
theorem clock_divisor_in_range_witness :
    (atmega328p.CPU_FREQ = 16000000 ∧ 0 ≤ atmega328p.FREQUENCY_CORRECTION ∧
      atmega328p.FREQUENCY_CORRECTION ≤ 40000 ∧ (0 : Int) ≤ 3 ∧ (3 : Int) ≤ 7) ∧
    (∃ h1 : Hw, hw_afsk_adcInit atmega328p 3 0x100 hw0 = Except.ok h1 ∧
      (h1.ICR1 : Int) =
        ((atmega328p.CPU_FREQ : Int) + atmega328p.FREQUENCY_CORRECTION) / 9600 - 1 ∧
      0 ≤ ((atmega328p.CPU_FREQ : Int) + atmega328p.FREQUENCY_CORRECTION) / 9600 - 1 ∧
      ((atmega328p.CPU_FREQ : Int) + atmega328p.FREQUENCY_CORRECTION) / 9600 - 1 ≤ 65535 ∧
      h1.ICR1 = timerTop atmega328p ∧
      (atmega328p.FREQUENCY_CORRECTION = 0 → h1.ICR1 = 1665)) ∧
    timerTop atmega328p = 1665 ∧ timerTop boardM1 = 1666 ∧ timerTop boardM2 = 1669 :=
  ⟨⟨by decide, by decide, by decide, by decide, by decide⟩,
    clock_divisor_in_range atmega328p 3 0x100 hw0 (by decide) (by decide) (by decide)
      (by decide) (by decide),
    by decide, by decide, by decide⟩

/-- C8. For a channel in `0..7`, running `hw_afsk_adcInit` a second time with
the same arguments on the state left by the first run gives that state
again. -/
theorem init_idempotent (cfg : Config) (ch : Int) (m : AfskRef) (h : Hw)
    (hch0 : 0 ≤ ch) (hch1 : ch ≤ 7) :
    ∃ h1 : Hw, hw_afsk_adcInit cfg ch m h = Except.ok h1 ∧
      hw_afsk_adcInit cfg ch m h1 = Except.ok h1 := by
  obtain ⟨n, rfl⟩ := Int.eq_ofNat_of_zero_le hch0
  have hn : n ≤ 7 := by omega
  refine ⟨_, adcInit_ok cfg n hn m h, ?_⟩
  rw [adcInit_ok cfg n hn m]
  simp only [clear_twice, set_twice]

/-- Witness for C8: channel 3 on the reference build. -/
theorem init_idempotent_witness :
    (0 : Int) ≤ 3 ∧ (3 : Int) ≤ 7 ∧
    ∃ h1 : Hw, hw_afsk_adcInit atmega328p 3 0x100 hw0 = Except.ok h1 ∧
      hw_afsk_adcInit atmega328p 3 0x100 h1 = Except.ok h1 :=
  ⟨by decide, by decide, init_idempotent atmega328p 3 0x100 hw0 (by decide) (by decide)⟩

/-- C10. For a channel `ch` in `0..7`, after `hw_afsk_adcInit` bit `ch` of
`DDRC` and of `PORTC` is 0 and bit `ch` of `DIDR0` is 1; every other bit of
these three 8-bit registers is as before the call; `ADMUX` holds
`BV(REFS0) OR ch` (as a byte), equal to `BV(REFS0) OR ch` itself when
`REFS0` is a bit number of the register, and its four low bits are `ch`
when `REFS0` lies above them. -/
theorem init_pin_frame (cfg : Config) (ch : Int) (m : AfskRef) (h : Hw)
    (hch0 : 0 ≤ ch) (hch1 : ch ≤ 7) :
    ∃ h1 : Hw, hw_afsk_adcInit cfg ch m h = Except.ok h1 ∧
      h1.DDRC.testBit ch.toNat = false ∧
      h1.PORTC.testBit ch.toNat = false ∧
      h1.DIDR0.testBit ch.toNat = true ∧
      (∀ i : Nat, i < 8 → i ≠ ch.toNat →
        h1.DDRC.testBit i = h.DDRC.testBit i ∧
        h1.PORTC.testBit i = h.PORTC.testBit i ∧
        h1.DIDR0.testBit i = h.DIDR0.testBit i) ∧
      h1.ADMUX = (BV cfg.REFS0 ||| ch.toNat) % 256 ∧
      (cfg.REFS0 ≤ 7 → h1.ADMUX = BV cfg.REFS0 ||| ch.toNat) ∧
      (4 ≤ cfg.REFS0 → h1.ADMUX % 16 = ch.toNat) := by
  obtain ⟨n, rfl⟩ := Int.eq_ofNat_of_zero_le hch0
  have hn : n ≤ 7 := by omega
  have hto : ((n : Nat) : Int).toNat = n := Int.toNat_ofNat n
  rw [hto]
  refine ⟨_, adcInit_ok cfg n hn m h, ?_, ?_, ?_, ?_, rfl, ?_, ?_⟩
  · show ((h.DDRC &&& not16 (BV n)) % 256).testBit n = false
    rw [testBit_clear]; simp
  · show ((h.PORTC &&& not16 (BV n)) % 256).testBit n = false
    rw [testBit_clear]; simp
  · show ((h.DIDR0 ||| BV n) % 256).testBit n = true
    rw [testBit_set]
    have : n < 8 := by omega
    simp [this]
  · intro i hi hne
    have hne2 : ¬ n = i := fun e => hne e.symm
    refine ⟨?_, ?_, ?_⟩
    · show ((h.DDRC &&& not16 (BV n)) % 256).testBit i = _
      rw [testBit_clear]; simp [hi, hne2]
    · show ((h.PORTC &&& not16 (BV n)) % 256).testBit i = _
      rw [testBit_clear]; simp [hi, hne2]
    · show ((h.DIDR0 ||| BV n) % 256).testBit i = _
      rw [testBit_set]; simp [hi, hne2]
  · intro hr
    show (BV cfg.REFS0 ||| n) % 256 = BV cfg.REFS0 ||| n
    apply Nat.mod_eq_of_lt
    exact Nat.or_lt_two_pow (BV_lt _ hr)
      (Nat.lt_of_le_of_lt hn (by decide))
  · intro hr
    show (BV cfg.REFS0 ||| n) % 256 % 16 = n
    have h3 : (256 : Nat) = 2 ^ 8 := by norm_num
    have h4 : (16 : Nat) = 2 ^ 4 := by norm_num
    rw [BV_eq, h3, h4]
    apply Nat.eq_of_testBit_eq
    intro i
    simp only [Nat.testBit_mod_two_pow, Nat.testBit_or, Nat.testBit_two_pow]
    by_cases hi : i < 4
    · have h8 : i < 8 := by omega
      have hne : ¬ cfg.REFS0 = i := by omega
      simp [hi, h8, hne]
    · have hnb : n.testBit i = false :=
        Nat.testBit_lt_two_pow (Nat.lt_of_lt_of_le (by omega : n < 2 ^ 4)
          (Nat.pow_le_pow_right (by decide) (by omega)))
      simp [hi, hnb]

/-- Witness for C10: channel 3 on the reference build. -/
theorem init_pin_frame_witness :
    (0 : Int) ≤ 3 ∧ (3 : Int) ≤ 7 ∧ atmega328p.REFS0 ≤ 7 ∧ 4 ≤ atmega328p.REFS0 ∧
    ∃ h1 : Hw, hw_afsk_adcInit atmega328p 3 0x100 hw0 = Except.ok h1 ∧
      h1.DDRC.testBit 3 = false ∧ h1.PORTC.testBit 3 = false ∧ h1.DIDR0.testBit 3 = true ∧
      h1.ADMUX = BV atmega328p.REFS0 ||| 3 ∧ h1.ADMUX % 16 = 3 := by
  obtain ⟨h1, hok, hd, hp, hi, _, _, ha, hm⟩ :=
    init_pin_frame atmega328p 3 0x100 hw0 (by decide) (by decide)
  exact ⟨by decide, by decide, by decide, by decide, h1, hok, hd, hp, hi,
    ha (by decide), hm (by decide)⟩

end MicroAPRS
